import Mathlib

/-!
Verification of the QRNG benchmarking script `qrngsim.py`.

The script defines three bit generators (a Qiskit-backed quantum-circuit
simulator, a remote ANU web API client, and a classical `secrets`-backed
baseline), a benchmarking engine `run_benchmark`, a plotter `plot_results`,
and a `__main__` entry point.  This file gives a shallow embedding:

* Python strings are modelled as `List Char` (`PyStr`);
* floating-point times are modelled as rationals (`ℚ`);
* the external collaborators (the OS random source `secrets.token_bytes`,
  the remote HTTP API, the Aer simulation backend, and the clock readings
  of `time.perf_counter`) are passed in as explicit parameters, so that a
  single run of the script corresponds to one choice of these parameters;
* the one fallible operation in `run_benchmark` — the float division
  `target_bits / duration`, which raises `ZeroDivisionError` in Python
  when `duration == 0` — is modelled by `pyDiv : ℚ → ℚ → Option ℚ`, and
  `run_benchmark` accordingly returns an `Option`.
-/

/-- Python strings, modelled as their character sequences. -/
abbrev PyStr := List Char

/-- Python's substring test `needle in hay` on strings (`str.__contains__`):
true iff `needle` occurs contiguously anywhere in `hay`. -/
def pyIn (needle : PyStr) : PyStr → Bool
  | [] => needle.isEmpty
  | c :: t => needle.isPrefixOf (c :: t) || pyIn needle t

/-- Binary digits of `n`, most significant first, empty for `0`; the first
argument is structural fuel (any fuel `≥ n` computes the digits of `n`). -/
def bitsAux : Nat → Nat → PyStr
  | 0, _ => []
  | fuel + 1, n =>
      if n = 0 then []
      else bitsAux fuel (n / 2) ++ [if n % 2 = 1 then '1' else '0']

/-- Python's format expression `f"{x:08b}"`: the minimal binary
representation of `x` (a single `'0'` for zero), left-padded with `'0'`
to width 8.  Used by `AnuWebQRNG.generate_bits` and
`ClassicalRNG.generate_bits` (qrngsim.py lines 40 and 52). -/
def format08b (x : Nat) : PyStr :=
  let s := if x = 0 then ['0'] else bitsAux x x
  List.replicate (8 - s.length) '0' ++ s

/-! ### 1. Local quantum simulation (qrngsim.py lines 11-22) -/

/-- One circuit operation appended by `QuantumCircuit.h` / `.measure`. -/
inductive Gate where
  | h (qubit : Nat)
  | measure (qubit : Nat) (clbit : Nat)
deriving DecidableEq

/-- The circuit description handed to the backend:
`QuantumCircuit(1, 1)` with `qc.h(0)` and `qc.measure(0, 0)`. -/
structure QuantumCircuit where
  num_qubits : Nat
  num_clbits : Nat
  ops : List Gate
deriving DecidableEq

/-- The circuit built by `QuantumSimulatorRNG.generate_bits`
(qrngsim.py lines 16-18). -/
def QuantumSimulatorRNG.circuit : QuantumCircuit :=
  { num_qubits := 1, num_clbits := 1, ops := [Gate.h 0, Gate.measure 0 0] }

/-- `QuantumSimulatorRNG.generate_bits` (qrngsim.py lines 15-22):
runs the fixed single-qubit circuit with `shots = num_bits` and
`memory=True`, then returns `"".join(memory)`.  `backend_run` models
`self.backend.run(qc, shots, memory=True).result().get_memory()`: it maps
a circuit and a shot count to the list of per-shot outcome strings, in
execution order (the AerSimulator backend is an external collaborator). -/
def QuantumSimulatorRNG.generate_bits (num_bits : Nat)
    (backend_run : QuantumCircuit → Nat → List PyStr) : PyStr :=
  let memory := backend_run QuantumSimulatorRNG.circuit num_bits
  memory.flatten

/-! ### 2. Remote ANU web API (qrngsim.py lines 25-44) -/

/-- Outcome of the block `requests.get(...); raise_for_status();
response.json()["data"]` as observed by `AnuWebQRNG.generate_bits`:
either the decoded `"data"` list, or an exception `e` (network error,
timeout, non-2xx status, malformed body) carrying its message `str(e)`. -/
inductive ApiResponse where
  | success (data : List Nat)
  | failure (msg : PyStr)
deriving DecidableEq

/-- The fixed endpoint `self.url` (qrngsim.py line 27). -/
def AnuWebQRNG.url : PyStr :=
  ("https://qrng.anu.edu.au/API/jsonI.php").data

/-- The `timeout=10` argument of the request (qrngsim.py line 37). -/
def AnuWebQRNG.request_timeout_seconds : Nat := 10

/-- The query parameters of the request (qrngsim.py lines 30-34):
`length = (num_bits // 8) + 1` and `type = "uint8"`. -/
def AnuWebQRNG.request_params (num_bits : Nat) : Nat × PyStr :=
  (num_bits / 8 + 1, ("uint8").data)

/-- `AnuWebQRNG.generate_bits` (qrngsim.py lines 29-44).  `api` models the
remote endpoint: it maps the requested `length` parameter to the response.
On success the bytes are each formatted with `f"{x:08b}"`, joined, and the
result sliced to `binary_string[:num_bits]`; on any exception the function
returns `f"Error: {e}"`. -/
def AnuWebQRNG.generate_bits (num_bits : Nat) (api : Nat → ApiResponse) : PyStr :=
  let num_bytes := (AnuWebQRNG.request_params num_bits).1
  match api num_bytes with
  | ApiResponse.success data => ((data.map format08b).flatten).take num_bits
  | ApiResponse.failure msg => ("Error: ").data ++ msg

/-! ### 3. Classical baseline (qrngsim.py lines 47-53) -/

/-- `ClassicalRNG.generate_bits` (qrngsim.py lines 48-53).  `token_bytes`
models `secrets.token_bytes`: it maps a requested byte count to the drawn
byte list (each element an octet value).  The code computes
`num_bytes = (num_bits // 8) + 1`, formats each byte with `f"{x:08b}"`,
joins, and slices to `binary_string[:num_bits]`. -/
def ClassicalRNG.generate_bits (num_bits : Nat)
    (token_bytes : Nat → List Nat) : PyStr :=
  let num_bytes := num_bits / 8 + 1
  let random_bytes := token_bytes num_bytes
  let binary_string := (random_bytes.map format08b).flatten
  binary_string.take num_bits

/-! ### 4. Benchmarking engine (qrngsim.py lines 56-85) -/

/-- One generator's turn in the `for name, gen in generators.items()` loop:
its registry name, the string returned by `gen.generate_bits(target_bits)`,
and the two `time.perf_counter()` readings around the call. -/
structure GenRun where
  name : PyStr
  bits : PyStr
  start_time : ℚ
  end_time : ℚ
deriving DecidableEq

/-- `duration = end_time - start_time` (qrngsim.py line 74). -/
def GenRun.duration (r : GenRun) : ℚ := r.end_time - r.start_time

/-- The substring the runner's guard looks for: `if "Error" in bits`
(qrngsim.py line 76). -/
def error_marker : PyStr := ("Error").data

/-- One line printed by `run_benchmark`: the banner, the column header,
the dash separator, a `FAILED` row, or a formatted result row. -/
inductive BenchLine where
  | header (target_bits : Nat)
  | columns
  | sep
  | failedRow (name : PyStr) (bits : PyStr)
  | row (name : PyStr) (duration : ℚ) (speed : ℚ)
deriving DecidableEq

/-- Rendering of the failure row
`f"{name:<20} | FAILED     | {bits}"` (qrngsim.py line 77), where
`{name:<20}` left-justifies `name` in a field of width 20. -/
def renderFailedRow (name : PyStr) (bits : PyStr) : PyStr :=
  (name ++ List.replicate (20 - name.length) ' ') ++ (" | FAILED     | ").data ++ bits

/-- Python's float division as used in `speed = target_bits / duration`
(qrngsim.py line 80): raises `ZeroDivisionError` when the divisor is zero,
modelled as `none`. -/
def pyDiv (a b : ℚ) : Option ℚ := if b = 0 then none else some (a / b)

/-- Python's dict assignment `results[name] = duration` (qrngsim.py
line 81) on an insertion-ordered association list: overwrite in place if
the key is present, else append. -/
def dictInsert (d : List (PyStr × ℚ)) (k : PyStr) (v : ℚ) : List (PyStr × ℚ) :=
  match d with
  | [] => [(k, v)]
  | p :: rest => if p.1 = k then (k, v) :: rest else p :: dictInsert rest k v

/-- The `for name, gen in generators.items()` loop of `run_benchmark`
(qrngsim.py lines 69-83), carrying the printed lines and the `results`
dict.  For each run: if `"Error" in bits`, print the FAILED row and
`continue`; otherwise compute `speed = target_bits / duration` (`none`
propagates the `ZeroDivisionError`), store the duration, and print the
result row. -/
def run_benchmark_loop (target_bits : Nat) :
    List GenRun → List BenchLine → List (PyStr × ℚ) →
    Option (List (PyStr × ℚ) × List BenchLine)
  | [], lines, results => some (results, lines)
  | r :: rest, lines, results =>
      if pyIn error_marker r.bits then
        run_benchmark_loop target_bits rest
          (lines ++ [BenchLine.failedRow r.name r.bits]) results
      else
        match pyDiv (target_bits : ℚ) r.duration with
        | none => none
        | some speed =>
            run_benchmark_loop target_bits rest
              (lines ++ [BenchLine.row r.name r.duration speed])
              (dictInsert results r.name r.duration)

/-- `run_benchmark` (qrngsim.py lines 56-85).  `runs` records, in registry
order, each generator's name, returned string, and clock readings; the
result is the `results` dict paired with the printed report, or `none` if
the `ZeroDivisionError` of `speed = target_bits / duration` fires. -/
def run_benchmark (target_bits : Nat) (runs : List GenRun) :
    Option (List (PyStr × ℚ) × List BenchLine) :=
  run_benchmark_loop target_bits runs
    [BenchLine.header target_bits, BenchLine.columns, BenchLine.sep] []

/-- `run_benchmark` invoked with no argument: the default parameter is
`target_bits=1024` (qrngsim.py line 56). -/
def run_benchmark_default (runs : List GenRun) :
    Option (List (PyStr × ℚ) × List BenchLine) :=
  run_benchmark 1024 runs

/-! ### 5. Visualization and entry point (qrngsim.py lines 88-107) -/

/-- One bar of the chart drawn by `plot_results`. -/
structure Bar where
  name : PyStr
  height : ℚ
deriving DecidableEq

/-- `plot_results` (qrngsim.py lines 88-103): one bar per entry of the
result mapping, in iteration order, with height equal to the duration. -/
def plot_results (results : List (PyStr × ℚ)) : List Bar :=
  results.map (fun p => { name := p.1, height := p.2 })

/-- The `__main__` block (qrngsim.py lines 105-107):
`data = run_benchmark(target_bits=2000); plot_results(data)`.
`argv` and `env` are the command-line arguments and environment the
process was started with; the script reads neither (`sys.argv` and
`os.environ` never appear), so they are accepted and ignored.  The result
pairs the printed report with the displayed chart. -/
def py_main (argv : List PyStr) (env : List (PyStr × PyStr))
    (runs : List GenRun) : Option (List BenchLine × List Bar) :=
  (run_benchmark 2000 runs).map (fun res => (res.2, plot_results res.1))

/-! ### Sample data for concrete evaluations -/

/-- A run whose generator succeeded with duration 1. -/
def sample_success_run : GenRun :=
  { name := ("Classical OS").data, bits := ("0101").data,
    start_time := 0, end_time := 1 }

/-- A run whose generator returned the failure sentinel. -/
def sample_error_run : GenRun :=
  { name := ("Remote ANU API").data, bits := ("Error: timed out").data,
    start_time := 0, end_time := 1 }

/-- A run whose output contains `"Error"` mid-string without the
`"Error: "` sentinel at the front. -/
def sample_mid_error_run : GenRun :=
  { name := ("Local Qiskit Sim").data, bits := ("0101Error").data,
    start_time := 0, end_time := 1 }

/-- A run whose generator succeeded but whose two clock readings
coincide, so `duration = 0`. -/
def sample_zero_duration_run : GenRun :=
  { name := ("Classical OS").data, bits := ("01").data,
    start_time := 5, end_time := 5 }

/-! ### Basic lemmas -/

/-- The runner's guard `pyIn needle hay` is exactly substring occurrence. -/
theorem pyIn_iff_substring (needle hay : PyStr) :
    pyIn needle hay = true ↔ needle <:+: hay := by
  induction hay with
  | nil =>
      simp [pyIn, List.isEmpty_iff]
  | cons c t ih =>
      simp [pyIn, List.isPrefixOf_iff_prefix, ih, List.infix_cons_iff]

theorem bitsAux_length_le (fuel n k : Nat) (hfuel : n ≤ fuel) (hlt : n < 2 ^ k) :
    (bitsAux fuel n).length ≤ k := by
  induction fuel generalizing n k with
  | zero =>
      simp [bitsAux]
  | succ fuel ih =>
      by_cases hn : n = 0
      · simp [bitsAux, hn]
      · have hk : k ≠ 0 := by
          rintro rfl
          simp only [pow_zero] at hlt
          omega
        have h1 : n / 2 ≤ fuel := by omega
        have h2 : n / 2 < 2 ^ (k - 1) := by
          rw [Nat.div_lt_iff_lt_mul (by norm_num : 0 < 2)]
          have hpow : 2 ^ (k - 1) * 2 = 2 ^ k := by
            rw [← pow_succ]
            congr 1
            omega
          omega
        have := ih (n / 2) (k - 1) h1 h2
        simp only [bitsAux, if_neg hn, List.length_append, List.length_cons,
          List.length_nil]
        omega

theorem bitsAux_chars (fuel n : Nat) :
    ∀ c ∈ bitsAux fuel n, c = '0' ∨ c = '1' := by
  induction fuel generalizing n with
  | zero =>
      simp [bitsAux]
  | succ fuel ih =>
      intro c hc
      by_cases hn : n = 0
      · simp [bitsAux, hn] at hc
      · simp only [bitsAux, if_neg hn, List.mem_append, List.mem_singleton] at hc
        rcases hc with hc | hc
        · exact ih (n / 2) c hc
        · by_cases hm : n % 2 = 1
          · right
            simp [hm] at hc
            exact hc
          · left
            simp [hm] at hc
            exact hc

/-- For an octet value, `f"{x:08b}"` has exactly 8 characters. -/
theorem format08b_length (x : Nat) (hx : x < 256) : (format08b x).length = 8 := by
  unfold format08b
  by_cases hx0 : x = 0
  · simp [hx0]
  · have h8 : (bitsAux x x).length ≤ 8 :=
      bitsAux_length_le x x 8 le_rfl (by omega)
    simp only [if_neg hx0, List.length_append, List.length_replicate]
    omega

theorem format08b_chars (x : Nat) : ∀ c ∈ format08b x, c = '0' ∨ c = '1' := by
  unfold format08b
  intro c hc
  simp only [List.mem_append, List.mem_replicate] at hc
  rcases hc with hc | hc
  · left
    exact hc.2
  · by_cases hx0 : x = 0
    · simp [hx0] at hc
      left
      exact hc
    · simp only [if_neg hx0] at hc
      exact bitsAux_chars x x c hc

theorem flatten_format08b_length (bytes : List Nat) (h : ∀ b ∈ bytes, b < 256) :
    ((bytes.map format08b).flatten).length = 8 * bytes.length := by
  induction bytes with
  | nil => simp
  | cons b bs ih =>
      have hb : b < 256 := h b (List.mem_cons_self b bs)
      have hbs : ∀ x ∈ bs, x < 256 := fun x hx => h x (List.mem_cons_of_mem b hx)
      simp only [List.map_cons, List.flatten_cons, List.length_append,
        format08b_length b hb, ih hbs, List.length_cons]
      ring

theorem flatten_format08b_chars (bytes : List Nat) :
    ∀ c ∈ (bytes.map format08b).flatten, c = '0' ∨ c = '1' := by
  intro c hc
  rw [List.mem_flatten] at hc
  obtain ⟨l, hl, hcl⟩ := hc
  rw [List.mem_map] at hl
  obtain ⟨b, _, rfl⟩ := hl
  exact format08b_chars b c hcl

/-- A pure `'0'`/`'1'` string never contains the failure marker. -/
theorem binary_no_error (s : PyStr) (h : ∀ c ∈ s, c = '0' ∨ c = '1') :
    pyIn error_marker s = false := by
  cases hb : pyIn error_marker s
  · rfl
  · exfalso
    have hinf : error_marker <:+: s := (pyIn_iff_substring _ _).1 hb
    have hE : 'E' ∈ s := hinf.sublist.mem (by decide)
    rcases h 'E' hE with h0 | h0 <;> exact absurd h0 (by decide)

/-! ### Claim C1: classical baseline generator -/

/-- C1: for every requested bit count `num_bits ≥ 1`, if the OS source
`secrets.token_bytes` returns the requested number of octets, then
`ClassicalRNG.generate_bits` returns a string of length exactly
`num_bits` composed only of the characters '0' and '1', and in particular
one that never contains the failure substring "Error". -/
theorem classical_generate_bits_spec (num_bits : Nat)
    (token_bytes : Nat → List Nat)
    (hpos : 1 ≤ num_bits)
    (hlen : (token_bytes (num_bits / 8 + 1)).length = num_bits / 8 + 1)
    (hbytes : ∀ b ∈ token_bytes (num_bits / 8 + 1), b < 256) :
    (ClassicalRNG.generate_bits num_bits token_bytes).length = num_bits ∧
    (∀ c ∈ ClassicalRNG.generate_bits num_bits token_bytes, c = '0' ∨ c = '1') ∧
    pyIn error_marker (ClassicalRNG.generate_bits num_bits token_bytes) = false := by
  have hdef : ClassicalRNG.generate_bits num_bits token_bytes
      = (((token_bytes (num_bits / 8 + 1)).map format08b).flatten).take num_bits := rfl
  have hchars : ∀ c ∈ ClassicalRNG.generate_bits num_bits token_bytes,
      c = '0' ∨ c = '1' := by
    intro c hc
    rw [hdef] at hc
    exact flatten_format08b_chars _ c (List.take_subset _ _ hc)
  refine ⟨?_, hchars, binary_no_error _ hchars⟩
  rw [hdef, List.length_take, flatten_format08b_length _ hbytes, hlen]
  omega

/-- Witness for C1 at `num_bits = 8` with an all-zero byte source. -/
theorem classical_generate_bits_spec_witness :
    (ClassicalRNG.generate_bits 8 (fun n => List.replicate n 0)).length = 8 ∧
    (∀ c ∈ ClassicalRNG.generate_bits 8 (fun n => List.replicate n 0),
      c = '0' ∨ c = '1') ∧
    pyIn error_marker (ClassicalRNG.generate_bits 8 (fun n => List.replicate n 0))
      = false :=
  classical_generate_bits_spec 8 (fun n => List.replicate n 0)
    (by decide) (by decide) (by decide)

/-! ### Claim C2: remote API generator, success path -/

/-- C2: on success, `AnuWebQRNG.generate_bits num_bits` requests
`num_bits / 8 + 1` unsigned 8-bit values, converts each returned byte to
its 8-character zero-padded binary representation, concatenates them in
order, and truncates to exactly `num_bits` characters. -/
theorem anu_generate_bits_success_spec (num_bits : Nat)
    (api : Nat → ApiResponse) (data : List Nat)
    (hresp : api (num_bits / 8 + 1) = ApiResponse.success data)
    (hlen : data.length = num_bits / 8 + 1)
    (hbytes : ∀ b ∈ data, b < 256) :
    (AnuWebQRNG.request_params num_bits).1 = num_bits / 8 + 1 ∧
    AnuWebQRNG.generate_bits num_bits api
      = ((data.map format08b).flatten).take num_bits ∧
    (AnuWebQRNG.generate_bits num_bits api).length = num_bits := by
  have hdef : AnuWebQRNG.generate_bits num_bits api
      = ((data.map format08b).flatten).take num_bits := by
    unfold AnuWebQRNG.generate_bits
    simp [AnuWebQRNG.request_params, hresp]
  refine ⟨rfl, hdef, ?_⟩
  rw [hdef, List.length_take, flatten_format08b_length data hbytes, hlen]
  omega

/-- Witness for C2: a response with data field `[255, 0]` for a request of
9 bits yields the binary string "111111110". -/
theorem anu_generate_bits_success_spec_witness :
    (AnuWebQRNG.request_params 9).1 = 9 / 8 + 1 ∧
    AnuWebQRNG.generate_bits 9 (fun _ => ApiResponse.success [255, 0])
      = ((([255, 0] : List Nat).map format08b).flatten).take 9 ∧
    (AnuWebQRNG.generate_bits 9 (fun _ => ApiResponse.success [255, 0])).length = 9 ∧
    AnuWebQRNG.generate_bits 9 (fun _ => ApiResponse.success [255, 0])
      = ("111111110").data := by
  have h := anu_generate_bits_success_spec 9
    (fun _ => ApiResponse.success [255, 0]) [255, 0] rfl (by decide) (by decide)
  exact ⟨h.1, h.2.1, h.2.2, by decide⟩

/-! ### Claim C3: remote API generator, failure path -/

/-- C3: if the remote API call raises any exception, the generator
returns a string (rather than propagating the exception) whose first 7
characters are exactly "Error: ". -/
theorem anu_generate_bits_error_spec (num_bits : Nat)
    (api : Nat → ApiResponse) (msg : PyStr)
    (hresp : api (num_bits / 8 + 1) = ApiResponse.failure msg) :
    (AnuWebQRNG.generate_bits num_bits api).take 7 = ("Error: ").data := by
  have hdef : AnuWebQRNG.generate_bits num_bits api = ("Error: ").data ++ msg := by
    unfold AnuWebQRNG.generate_bits
    simp [AnuWebQRNG.request_params, hresp]
  rw [hdef, List.take_append_eq_append_take]
  have h1 : (("Error: ").data).take 7 = ("Error: ").data := by decide
  have h2 : 7 - (("Error: ").data).length = 0 := by decide
  rw [h1, h2, List.take_zero, List.append_nil]

/-- Witness for C3 with a timeout-style exception message. -/
theorem anu_generate_bits_error_spec_witness :
    (AnuWebQRNG.generate_bits 16
        (fun _ => ApiResponse.failure (("Read timed out.").data))).take 7
      = ("Error: ").data :=
  anu_generate_bits_error_spec 16
    (fun _ => ApiResponse.failure (("Read timed out.").data))
    (("Read timed out.").data) rfl

/-! ### Claim C7: quantum-circuit simulator generator -/

/-- A deterministic stand-in for the Aer backend: every shot measures '0'. -/
def sample_backend (_ : QuantumCircuit) (shots : Nat) : List PyStr :=
  List.replicate shots ['0']

/-- C7: `QuantumSimulatorRNG.generate_bits num_bits` executes the fixed
single-qubit circuit with shot count `num_bits` and returns the
concatenation of the per-shot outcomes in execution order; provided the
backend honors its interface (one single-character binary outcome per
shot), the returned string has length exactly `num_bits`. -/
theorem quantum_generate_bits_spec (num_bits : Nat)
    (backend_run : QuantumCircuit → Nat → List PyStr)
    (hshots : (backend_run QuantumSimulatorRNG.circuit num_bits).length = num_bits)
    (hshot_bit : ∀ m ∈ backend_run QuantumSimulatorRNG.circuit num_bits,
      m.length = 1) :
    QuantumSimulatorRNG.generate_bits num_bits backend_run
      = (backend_run QuantumSimulatorRNG.circuit num_bits).flatten ∧
    (QuantumSimulatorRNG.generate_bits num_bits backend_run).length = num_bits := by
  refine ⟨rfl, ?_⟩
  show ((backend_run QuantumSimulatorRNG.circuit num_bits).flatten).length = num_bits
  rw [List.length_flatten]
  have hall : ∀ x ∈ (backend_run QuantumSimulatorRNG.circuit num_bits).map
      List.length, x = 1 := by
    intro x hx
    rw [List.mem_map] at hx
    obtain ⟨m, hm, rfl⟩ := hx
    exact hshot_bit m hm
  rw [List.sum_eq_card_nsmul _ 1 hall]
  simp [hshots]

/-- Witness for C7 at `num_bits = 4` with the deterministic backend. -/
theorem quantum_generate_bits_spec_witness :
    QuantumSimulatorRNG.generate_bits 4 sample_backend
      = (sample_backend QuantumSimulatorRNG.circuit 4).flatten ∧
    (QuantumSimulatorRNG.generate_bits 4 sample_backend).length = 4 :=
  quantum_generate_bits_spec 4 sample_backend (by decide) (by decide)

/-! ### Benchmark loop lemmas -/

theorem dictInsert_of_not_mem (d : List (PyStr × ℚ)) (k : PyStr) (v : ℚ)
    (h : ∀ p ∈ d, p.1 ≠ k) : dictInsert d k v = d ++ [(k, v)] := by
  induction d with
  | nil => rfl
  | cons p rest ih =>
      have hp : p.1 ≠ k := h p (List.mem_cons_self p rest)
      simp only [dictInsert, if_neg hp, List.cons_append]
      rw [ih (fun q hq => h q (List.mem_cons_of_mem p hq))]

/-- Full characterization of the benchmark loop when it returns: every
successful run had a nonzero duration, the results dict is the initial one
extended with one `(name, duration)` entry per successful run in order,
and the printed lines are the initial ones followed by one row per run. -/
theorem run_benchmark_loop_spec (t : Nat) :
    ∀ (runs : List GenRun) (lines : List BenchLine)
      (results res : List (PyStr × ℚ)) (lns : List BenchLine),
    run_benchmark_loop t runs lines results = some (res, lns) →
    (∀ r ∈ runs, ∀ p ∈ results, p.1 ≠ r.name) →
    ((runs.map GenRun.name).Nodup) →
    (∀ r ∈ runs, pyIn error_marker r.bits = false → r.duration ≠ 0) ∧
    res = results
      ++ (runs.filter (fun r => !(pyIn error_marker r.bits))).map
          (fun r => (r.name, r.duration)) ∧
    lns = lines ++ runs.map (fun r =>
      if pyIn error_marker r.bits then BenchLine.failedRow r.name r.bits
      else BenchLine.row r.name r.duration ((t : ℚ) / r.duration)) := by
  intro runs
  induction runs with
  | nil =>
      intro lines results res lns h hdisj hnodup
      simp only [run_benchmark_loop, Option.some.injEq, Prod.mk.injEq] at h
      obtain ⟨rfl, rfl⟩ := h
      simp
  | cons r rest ih =>
      intro lines results res lns h hdisj hnodup
      simp only [List.map_cons, List.nodup_cons] at hnodup
      obtain ⟨hrname, hnd'⟩ := hnodup
      simp only [run_benchmark_loop] at h
      by_cases hg : pyIn error_marker r.bits = true
      · simp only [hg, if_true] at h
        obtain ⟨hdur, hres, hlns⟩ := ih (lines ++ [BenchLine.failedRow r.name r.bits])
          results res lns h
          (fun x hx p hp => hdisj x (List.mem_cons_of_mem r hx) p hp) hnd'
        refine ⟨?_, ?_, ?_⟩
        · intro x hx hok
          rcases List.mem_cons.1 hx with rfl | hx'
          · rw [hok] at hg
            cases hg
          · exact hdur x hx' hok
        · rw [hres]
          simp [List.filter_cons, hg]
        · rw [hlns]
          simp [hg, List.append_assoc]
      · have hg' : pyIn error_marker r.bits = false := by
          cases hb : pyIn error_marker r.bits
          · rfl
          · exact absurd hb hg
        simp only [hg', Bool.false_eq_true, if_false] at h
        by_cases hd : r.duration = 0
        · simp [pyDiv, hd] at h
        · simp only [pyDiv, if_neg hd] at h
          have hdictd : dictInsert results r.name r.duration
              = results ++ [(r.name, r.duration)] :=
            dictInsert_of_not_mem results r.name r.duration
              (fun p hp => hdisj r (List.mem_cons_self r rest) p hp)
          rw [hdictd] at h
          have hdisj' : ∀ x ∈ rest, ∀ p ∈ results ++ [(r.name, r.duration)],
              p.1 ≠ x.name := by
            intro x hx p hp
            rcases List.mem_append.1 hp with hp' | hp'
            · exact hdisj x (List.mem_cons_of_mem r hx) p hp'
            · simp only [List.mem_singleton] at hp'
              subst hp'
              show r.name ≠ x.name
              intro he
              apply hrname
              rw [he]
              exact List.mem_map_of_mem GenRun.name hx
          obtain ⟨hdur, hres, hlns⟩ := ih
            (lines ++ [BenchLine.row r.name r.duration ((t : ℚ) / r.duration)])
            (results ++ [(r.name, r.duration)]) res lns h hdisj' hnd'
          refine ⟨?_, ?_, ?_⟩
          · intro x hx hok
            rcases List.mem_cons.1 hx with rfl | hx'
            · exact hd
            · exact hdur x hx' hok
          · rw [hres]
            simp [List.filter_cons, hg', List.append_assoc]
          · rw [hlns]
            simp [hg', List.append_assoc]

theorem results_key_not_mem (runs : List GenRun) (k : PyStr)
    (hk : k ∉ runs.map GenRun.name) :
    ((runs.filter (fun x => !(pyIn error_marker x.bits))).map
        (fun x => (x.name, x.duration))).filter (fun p => p.1 == k) = [] := by
  induction runs with
  | nil => rfl
  | cons x rest ih =>
      simp only [List.map_cons, List.mem_cons, not_or] at hk
      obtain ⟨hxk, hrest⟩ := hk
      have hb : (x.name == k) = false := by
        simp only [beq_eq_false_iff_ne, ne_eq]
        exact fun he => hxk he.symm
      by_cases hgx : pyIn error_marker x.bits
      · simp [List.filter_cons, hgx, ih hrest]
      · simp [List.filter_cons, hgx, hb, ih hrest]

theorem results_key_eq (runs : List GenRun)
    (hnodup : (runs.map GenRun.name).Nodup) (r : GenRun) (hr : r ∈ runs)
    (hok : pyIn error_marker r.bits = false) :
    ((runs.filter (fun x => !(pyIn error_marker x.bits))).map
        (fun x => (x.name, x.duration))).filter (fun p => p.1 == r.name)
      = [(r.name, r.duration)] := by
  induction runs with
  | nil => cases hr
  | cons x rest ih =>
      simp only [List.map_cons, List.nodup_cons] at hnodup
      obtain ⟨hxnot, hnd'⟩ := hnodup
      rcases List.mem_cons.1 hr with rfl | hr'
      · simp [List.filter_cons, hok, results_key_not_mem rest r.name hxnot]
      · have hxr : (x.name == r.name) = false := by
          simp only [beq_eq_false_iff_ne, ne_eq]
          intro he
          apply hxnot
          rw [he]
          exact List.mem_map_of_mem GenRun.name hr'
        by_cases hgx : pyIn error_marker x.bits
        · simp [List.filter_cons, hgx, ih hnd' hr']
        · simp [List.filter_cons, hgx, hxr, ih hnd' hr']

/-- Shared core of C4 and C9: a run whose output contains "Error"
contributes no entry to the results and gets a FAILED row printed. -/
theorem run_benchmark_excluded_core (t : Nat) (runs : List GenRun) (r : GenRun)
    (res : List (PyStr × ℚ)) (lns : List BenchLine)
    (hnodup : (runs.map GenRun.name).Nodup)
    (hr : r ∈ runs)
    (herr : pyIn error_marker r.bits = true)
    (hrun : run_benchmark t runs = some (res, lns)) :
    (∀ p ∈ res, p.1 ≠ r.name) ∧ BenchLine.failedRow r.name r.bits ∈ lns := by
  obtain ⟨-, hres, hlns⟩ := run_benchmark_loop_spec t runs
    [BenchLine.header t, BenchLine.columns, BenchLine.sep] [] res lns hrun
    (by simp) hnodup
  constructor
  · intro p hp he
    rw [hres, List.nil_append, List.mem_map] at hp
    obtain ⟨x, hx, hpx⟩ := hp
    rw [List.mem_filter] at hx
    obtain ⟨hxmem, hxok⟩ := hx
    have hxname : x.name = r.name := by
      rw [← hpx] at he
      exact he
    have hxr : x = r := List.inj_on_of_nodup_map hnodup hxmem hr hxname
    rw [hxr, herr] at hxok
    cases hxok
  · rw [hlns]
    refine List.mem_append_right _ ?_
    have hm := List.mem_map_of_mem (fun x =>
      if pyIn error_marker x.bits then BenchLine.failedRow x.name x.bits
      else BenchLine.row x.name x.duration ((t : ℚ) / x.duration)) hr
    simpa [herr] using hm

/-- The printed lines only grow: whatever was printed before the loop is a
prefix of the final report. -/
theorem run_benchmark_loop_lines_mono (t : Nat) :
    ∀ (runs : List GenRun) (lines : List BenchLine)
      (results res : List (PyStr × ℚ)) (lns : List BenchLine),
    run_benchmark_loop t runs lines results = some (res, lns) →
    lines <+: lns := by
  intro runs
  induction runs with
  | nil =>
      intro lines results res lns h
      simp only [run_benchmark_loop, Option.some.injEq, Prod.mk.injEq] at h
      obtain ⟨-, rfl⟩ := h
      exact List.prefix_refl lines
  | cons r rest ih =>
      intro lines results res lns h
      simp only [run_benchmark_loop] at h
      by_cases hg : pyIn error_marker r.bits = true
      · simp only [hg, if_true] at h
        exact (List.prefix_append lines _).trans (ih _ _ res lns h)
      · have hg' : pyIn error_marker r.bits = false := by
          cases hb : pyIn error_marker r.bits
          · rfl
          · exact absurd hb hg
        simp only [hg', Bool.false_eq_true, if_false] at h
        by_cases hd : r.duration = 0
        · simp [pyDiv, hd] at h
        · simp only [pyDiv, if_neg hd] at h
          exact (List.prefix_append lines _).trans (ih _ _ res lns h)

/-- Every result row printed by the loop satisfies `speed * duration =
target_bits`: the speed was computed as `target_bits / duration`. -/
theorem run_benchmark_loop_rows (t : Nat) :
    ∀ (runs : List GenRun) (lines : List BenchLine)
      (results res : List (PyStr × ℚ)) (lns : List BenchLine),
    run_benchmark_loop t runs lines results = some (res, lns) →
    (∀ n d s, BenchLine.row n d s ∈ lines → s * d = (t : ℚ)) →
    ∀ n d s, BenchLine.row n d s ∈ lns → s * d = (t : ℚ) := by
  intro runs
  induction runs with
  | nil =>
      intro lines results res lns h hinv
      simp only [run_benchmark_loop, Option.some.injEq, Prod.mk.injEq] at h
      obtain ⟨-, rfl⟩ := h
      exact hinv
  | cons r rest ih =>
      intro lines results res lns h hinv
      simp only [run_benchmark_loop] at h
      by_cases hg : pyIn error_marker r.bits = true
      · simp only [hg, if_true] at h
        refine ih _ _ res lns h ?_
        intro n d s hmem
        rcases List.mem_append.1 hmem with hm | hm
        · exact hinv n d s hm
        · simp at hm
      · have hg' : pyIn error_marker r.bits = false := by
          cases hb : pyIn error_marker r.bits
          · rfl
          · exact absurd hb hg
        simp only [hg', Bool.false_eq_true, if_false] at h
        by_cases hd : r.duration = 0
        · simp [pyDiv, hd] at h
        · simp only [pyDiv, if_neg hd] at h
          refine ih _ _ res lns h ?_
          intro n d s hmem
          rcases List.mem_append.1 hmem with hm | hm
          · exact hinv n d s hm
          · simp only [List.mem_singleton, BenchLine.row.injEq] at hm
            obtain ⟨-, rfl, rfl⟩ := hm
            exact div_mul_cancel₀ _ hd

/-! ### Claim C4: failed generators are excluded and reported -/

/-- C4: a generator whose output contains the failure marker contributes
no entry to the returned mapping — it is excluded entirely — and the
FAILED row printed for it (whose rendering contains "FAILED") appears in
the report. -/
theorem run_benchmark_excludes_failures (t : Nat) (runs : List GenRun)
    (r : GenRun) (res : List (PyStr × ℚ)) (lns : List BenchLine)
    (hnodup : (runs.map GenRun.name).Nodup)
    (hr : r ∈ runs)
    (herr : pyIn error_marker r.bits = true)
    (hrun : run_benchmark t runs = some (res, lns)) :
    (∀ p ∈ res, p.1 ≠ r.name) ∧
    BenchLine.failedRow r.name r.bits ∈ lns ∧
    ("FAILED").data <:+: renderFailedRow r.name r.bits := by
  obtain ⟨h1, h2⟩ := run_benchmark_excluded_core t runs r res lns hnodup hr herr hrun
  refine ⟨h1, h2, ?_⟩
  have hmid : ("FAILED").data <:+: (" | FAILED     | ").data := by decide
  have hwhole : (" | FAILED     | ").data <:+: renderFailedRow r.name r.bits := by
    unfold renderFailedRow
    exact List.infix_append _ _ _
  exact hmid.trans hwhole

/-- Witness for C4: a single generator returning "Error: timed out". -/
theorem run_benchmark_excludes_failures_witness :
    (∀ p ∈ ([] : List (PyStr × ℚ)), p.1 ≠ sample_error_run.name) ∧
    BenchLine.failedRow sample_error_run.name sample_error_run.bits ∈
      [BenchLine.header 10, BenchLine.columns, BenchLine.sep,
       BenchLine.failedRow (("Remote ANU API").data) (("Error: timed out").data)] ∧
    ("FAILED").data <:+: renderFailedRow sample_error_run.name sample_error_run.bits :=
  run_benchmark_excludes_failures 10 [sample_error_run] sample_error_run []
    [BenchLine.header 10, BenchLine.columns, BenchLine.sep,
     BenchLine.failedRow (("Remote ANU API").data) (("Error: timed out").data)]
    (by decide) (by simp) (by decide) (by decide)

/-! ### Claim C5: successful generators get exactly one entry -/

/-- C5: a generator whose output is not a failure sentinel contributes
exactly one entry to the returned mapping, keyed by its name; the value is
its measured duration, and it is non-negative (the two `perf_counter`
readings are monotone). -/
theorem run_benchmark_records_success (t : Nat) (runs : List GenRun)
    (r : GenRun) (res : List (PyStr × ℚ)) (lns : List BenchLine)
    (hnodup : (runs.map GenRun.name).Nodup)
    (hr : r ∈ runs)
    (hok : pyIn error_marker r.bits = false)
    (hclock : r.start_time ≤ r.end_time)
    (hrun : run_benchmark t runs = some (res, lns)) :
    res.filter (fun p => p.1 == r.name) = [(r.name, r.duration)] ∧
    0 ≤ r.duration := by
  obtain ⟨-, hres, -⟩ := run_benchmark_loop_spec t runs
    [BenchLine.header t, BenchLine.columns, BenchLine.sep] [] res lns hrun
    (by simp) hnodup
  constructor
  · rw [hres, List.nil_append]
    exact results_key_eq runs hnodup r hr hok
  · unfold GenRun.duration
    exact sub_nonneg.2 hclock

/-- Witness for C5: a single successful generator with duration 1. -/
theorem run_benchmark_records_success_witness :
    ([((("Classical OS").data : PyStr), (1 : ℚ))].filter
        (fun p => p.1 == sample_success_run.name))
      = [(sample_success_run.name, sample_success_run.duration)] ∧
    0 ≤ sample_success_run.duration :=
  run_benchmark_records_success 10 [sample_success_run] sample_success_run
    [((("Classical OS").data : PyStr), (1 : ℚ))]
    [BenchLine.header 10, BenchLine.columns, BenchLine.sep,
     BenchLine.row (("Classical OS").data) 1 10]
    (by decide) (by simp) (by decide)
    (by norm_num [sample_success_run])
    (by norm_num [run_benchmark, run_benchmark_loop, pyDiv, dictInsert,
      sample_success_run, GenRun.duration,
      (by decide : pyIn error_marker (("0101").data) = false)])

/-! ### Claim C6: the speed computation is unguarded -/

/-- C6: `speed = target_bits / duration` has no zero guard: an execution
whose successful generator measures duration exactly zero reaches the
division by zero, which aborts `run_benchmark` (modelled as `none`, the
propagated `ZeroDivisionError`). -/
theorem run_benchmark_div_by_zero_reachable :
    pyIn error_marker sample_zero_duration_run.bits = false ∧
    sample_zero_duration_run.duration = 0 ∧
    run_benchmark 2000 [sample_zero_duration_run] = none := by
  refine ⟨by decide, ?_, ?_⟩
  · norm_num [sample_zero_duration_run, GenRun.duration]
  · norm_num [run_benchmark, run_benchmark_loop, pyDiv,
      sample_zero_duration_run, GenRun.duration,
      (by decide : pyIn error_marker (("01").data) = false)]

/-! ### Claim C9: the failure guard is a substring test, not a prefix test -/

/-- C9: the runner's failure detection is the substring test
`"Error" in bits`; any output containing "Error" anywhere is excluded
from the result mapping and reported as FAILED, even when it does not
begin with the sentinel "Error: ". -/
theorem run_benchmark_guard_is_substring (t : Nat) (runs : List GenRun)
    (r : GenRun) (res : List (PyStr × ℚ)) (lns : List BenchLine)
    (hnodup : (runs.map GenRun.name).Nodup)
    (hr : r ∈ runs)
    (hsub : error_marker <:+: r.bits)
    (hnotpre : ¬ (("Error: ").data <+: r.bits))
    (hrun : run_benchmark t runs = some (res, lns)) :
    pyIn error_marker r.bits = true ∧
    (∀ p ∈ res, p.1 ≠ r.name) ∧
    BenchLine.failedRow r.name r.bits ∈ lns := by
  have herr : pyIn error_marker r.bits = true := (pyIn_iff_substring _ _).2 hsub
  obtain ⟨h1, h2⟩ := run_benchmark_excluded_core t runs r res lns hnodup hr herr hrun
  exact ⟨herr, h1, h2⟩

/-- Witness for C9: the output "0101Error" contains "Error" mid-string,
does not start with "Error: ", and is still excluded and reported. -/
theorem run_benchmark_guard_is_substring_witness :
    pyIn error_marker sample_mid_error_run.bits = true ∧
    (∀ p ∈ ([] : List (PyStr × ℚ)), p.1 ≠ sample_mid_error_run.name) ∧
    BenchLine.failedRow sample_mid_error_run.name sample_mid_error_run.bits ∈
      [BenchLine.header 7, BenchLine.columns, BenchLine.sep,
       BenchLine.failedRow (("Local Qiskit Sim").data) (("0101Error").data)] :=
  run_benchmark_guard_is_substring 7 [sample_mid_error_run] sample_mid_error_run
    []
    [BenchLine.header 7, BenchLine.columns, BenchLine.sep,
     BenchLine.failedRow (("Local Qiskit Sim").data) (("0101Error").data)]
    (by decide) (by simp) (by decide) (by decide) (by decide)

/-! ### Claim C8: the entry point benchmarks 2000 bits and plots -/

/-- C8: running the script executes the benchmark for the fixed target of
exactly 2000 bits and displays the plot of the returned result mapping;
the command-line arguments and environment have no effect.  The fixed
target shows up in the printed banner and in every printed speed, which
satisfies `speed * duration = 2000`; the displayed bars are exactly the
entries of the returned mapping. -/
theorem py_main_spec (argv : List PyStr) (env : List (PyStr × PyStr))
    (runs : List GenRun) (res : List (PyStr × ℚ)) (lns : List BenchLine)
    (hrun : run_benchmark 2000 runs = some (res, lns)) :
    py_main argv env runs = some (lns, plot_results res) ∧
    py_main argv env runs = py_main [] [] runs ∧
    BenchLine.header 2000 ∈ lns ∧
    (∀ n d s, BenchLine.row n d s ∈ lns → s * d = (2000 : ℚ)) ∧
    (plot_results res).map (fun b => (b.name, b.height)) = res := by
  refine ⟨?_, rfl, ?_, ?_, ?_⟩
  · simp [py_main, hrun]
  · have hpre := run_benchmark_loop_lines_mono 2000 runs
      [BenchLine.header 2000, BenchLine.columns, BenchLine.sep] [] res lns hrun
    exact hpre.sublist.subset (by simp)
  · refine run_benchmark_loop_rows 2000 runs
      [BenchLine.header 2000, BenchLine.columns, BenchLine.sep] [] res lns hrun ?_
    intro n d s hm
    simp at hm
  · simp only [plot_results, List.map_map]
    have hcomp : ((fun b : Bar => (b.name, b.height)) ∘
        fun p : PyStr × ℚ => ({ name := p.1, height := p.2 } : Bar)) = id := by
      funext p
      rfl
    rw [hcomp, List.map_id]

/-- Witness for C8: one successful generator; flags and environment
variables are passed and ignored. -/
theorem py_main_spec_witness :
    py_main [("--verbose").data] [((("QRNG_TARGET").data), (("9999").data))]
        [sample_success_run]
      = some ([BenchLine.header 2000, BenchLine.columns, BenchLine.sep,
               BenchLine.row (("Classical OS").data) 1 2000],
              plot_results [((("Classical OS").data : PyStr), (1 : ℚ))]) ∧
    py_main [("--verbose").data] [((("QRNG_TARGET").data), (("9999").data))]
        [sample_success_run]
      = py_main [] [] [sample_success_run] ∧
    BenchLine.header 2000 ∈
      [BenchLine.header 2000, BenchLine.columns, BenchLine.sep,
       BenchLine.row (("Classical OS").data) 1 2000] := by
  have h := py_main_spec [("--verbose").data]
    [((("QRNG_TARGET").data), (("9999").data))] [sample_success_run]
    [((("Classical OS").data : PyStr), (1 : ℚ))]
    [BenchLine.header 2000, BenchLine.columns, BenchLine.sep,
     BenchLine.row (("Classical OS").data) 1 2000]
    (by norm_num [run_benchmark, run_benchmark_loop, pyDiv, dictInsert,
      sample_success_run, GenRun.duration,
      (by decide : pyIn error_marker (("0101").data) = false)])
  exact ⟨h.1, h.2.1, h.2.2.1⟩

/-! ### Claim C10: the bare default target is 1024, not 2000 -/

/-- C10: `run_benchmark` called with no argument uses the default
`target_bits = 1024`, which differs from the 2000-bit target the entry
point passes: the two invocations announce different targets in their
printed banner. -/
theorem run_benchmark_default_target :
    (∀ runs : List GenRun, run_benchmark_default runs = run_benchmark 1024 runs) ∧
    run_benchmark_default []
      = some ([], [BenchLine.header 1024, BenchLine.columns, BenchLine.sep]) ∧
    py_main [] [] []
      = some ([BenchLine.header 2000, BenchLine.columns, BenchLine.sep], []) ∧
    BenchLine.header 1024 ≠ BenchLine.header 2000 := by
  refine ⟨fun runs => rfl, rfl, rfl, by decide⟩
